import Mathlib

/-!
Verification of the asynchronous tar reader in `src/async_archive.rs`,
`src/async_entry.rs`, `src/async_traits.rs` and `src/async_utils.rs`.

The underlying byte source is modelled as a cursor over a finite byte list
(the tests use `std::io::Cursor<Vec<u8>>`). Machine integers (`u64`) are
modelled as `Nat`, with an explicit `% 2^64` wherever the Rust code performs
wrapping (release-mode) arithmetic. Fallible operations return `Except`.
-/

set_option maxRecDepth 100000

deriving instance DecidableEq for Except

/-- A byte value, 0..255. -/
abbrev Byte := Nat

/-- The wrap modulus of Rust `u64` arithmetic. -/
def U64 : Nat := 2 ^ 64

/-- The `BLOCK_SIZE` constant (512) appears literally below, as in the source. -/
structure ByteStream where
  data : List Byte
  pos : Nat
deriving DecidableEq, Repr

/-- One `read_buf` call against a cursor: fills `min len (available)` bytes
starting at the current position and advances the position by that amount
(`tokio::io::ReadBuf` over `std::io::Cursor`). -/
def readChunk (st : ByteStream) (len : Nat) : List Byte × ByteStream :=
  let bytes := (st.data.drop st.pos).take len
  (bytes, { st with pos := st.pos + bytes.length })

/-- `try_read_all_async` (src/async_utils.rs:48-61): loops `read_buf` until the
buffer of length `len` is full, returning `none` (Rust `Ok(false)`) if a zero
read occurs first. Over a cursor the loop fills everything available in the
first call, so the result is `some` of the next `len` bytes when that many are
available, else `none` with the position advanced past all remaining bytes. -/
def tryReadAll (st : ByteStream) (len : Nat) : Option (List Byte) × ByteStream :=
  if len ≤ st.data.length - st.pos then
    (some ((st.data.drop st.pos).take len), { st with pos := st.pos + len })
  else
    (none, { st with pos := max st.pos st.data.length })

/-- `seek_relative` (src/async_utils.rs:66-72): `SeekFrom::Current(offset)`;
a cursor errors when the resulting position would be negative. -/
def seekRelative (st : ByteStream) (offset : Int) : Except String ByteStream :=
  if (st.pos : Int) + offset < 0 then Except.error "invalid seek to a negative or overflowing position"
  else Except.ok { st with pos := ((st.pos : Int) + offset).toNat }

/-- The fields of `AsyncEntry` (src/async_traits.rs:63-74). The `Header` of the
external header codec is carried as its raw 512-byte block. -/
structure Entry where
  header : List Byte
  size : Nat
  pos : Nat
  headerPos : Nat
  filePos : Nat
  paxExtensions : Option (List Byte)
  longPathname : Option (List Byte)
  longLinkname : Option (List Byte)
deriving DecidableEq, Repr

/-- The traversal state: `AsyncEntriesFields` (src/async_traits.rs:16-20)
together with the archive's shared stream and its `ignore_zeros` flag
(src/async_archive.rs:24-33). -/
structure Session where
  stream : ByteStream
  offset : Nat
  done : Bool
  ignoreZeros : Bool
deriving DecidableEq, Repr

/-- The all-zero test `header.iter().all(|i| *i == 0)`
(src/async_archive.rs:104 and 195). -/
def isZeroBlock (block : List Byte) : Bool :=
  block.all (fun b => b == 0)

/-- The invalid-byte test `header.iter().any(|&b| b != 0 && !b.is_ascii())`
(src/async_archive.rs:210); `is_ascii` holds for byte values at most 127. -/
def hasBadByte (block : List Byte) : Bool :=
  block.any (fun b => b != 0 && decide (127 < b))

/-- The byte string `b"ustar\x0000"` (src/async_archive.rs:216). -/
def ustarMagic : List Byte := [117, 115, 116, 97, 114, 0, 48, 48]

/-- The byte string `b"ustar  \x00"` (src/async_archive.rs:216). -/
def gnuMagic : List Byte := [117, 115, 116, 97, 114, 32, 32, 0]

/-- The magic field `&header[257..265]` (src/async_archive.rs:215). -/
def magicField (block : List Byte) : List Byte :=
  (block.drop 257).take 8

/-- Recognition of the two accepted magic values (src/async_archive.rs:216). -/
def magicOkB (block : List Byte) : Bool :=
  magicField block == ustarMagic || magicField block == gnuMagic

/-- The checksum field `header[148..156]` (src/async_archive.rs:221). -/
def cksumField (block : List Byte) : List Byte :=
  (block.drop 148).take 8

/-- The character-set test on the checksum field: every byte a space, NUL, or
octal digit (src/async_archive.rs:221-223). -/
def cksumFieldOk (block : List Byte) : Bool :=
  (cksumField block).all (fun b => b == 32 || b == 0 || (decide (48 ≤ b) && decide (b ≤ 55)))

/-- The computed checksum: the sum of all header bytes outside `[148,156)`,
plus `8 * 32` for the checksum field treated as eight spaces
(src/async_archive.rs:228-232). The `u32` accumulator cannot wrap: the sum is
at most `512 * 255 + 256 < 2^32`. -/
def sumHeader (block : List Byte) : Nat :=
  (block.take 148 ++ block.drop 156).foldl (fun a b => a + b) 0 + 8 * 32

/-- `u32::from_str_radix(str::from_utf8(&header[148..156])?, 8)`
(src/async_archive.rs:234-238). This runs after `cksumFieldOk`, so every byte
is a space, NUL, or octal digit; `from_str_radix` then succeeds exactly when
the field is nonempty and consists of octal digits only (a space or NUL
anywhere is an invalid digit). The value of eight octal digits is below
`2^24`, so no `u32` overflow is possible. -/
def parseCksum (field : List Byte) : Except String Nat :=
  if field.length != 0 && field.all (fun b => decide (48 ≤ b) && decide (b ≤ 55)) then
    Except.ok (field.foldl (fun a b => a * 8 + (b - 48)) 0)
  else
    Except.error "invalid header checksum"

/-- The payload-size rounding `(size + (BLOCK_SIZE - 1)) & !(BLOCK_SIZE - 1)`
(src/async_archive.rs:264): a wrapping add of 511 followed by clearing the low
nine bits. -/
def roundUp512 (sz : Nat) : Nat :=
  ((sz + 511) % U64) / 512 * 512

/-- Modelled from the spec: generic octal-field decoding of the external
header codec (`src/header.rs` is not part of `src/`). Per the spec the codec
"reads octal integer fields": the field is truncated at the first NUL byte,
surrounding spaces are trimmed, an empty remainder decodes to zero, and
anything other than octal digits is a decode error. -/
def parseOctal (field : List Byte) : Except String Nat :=
  let t := ((field.takeWhile (fun b => b != 0)).dropWhile (fun b => b == 32)).reverse
    |>.dropWhile (fun b => b == 32) |>.reverse
  if t.length == 0 then Except.ok 0
  else if t.all (fun b => decide (48 ≤ b) && decide (b ≤ 55)) then
    Except.ok (t.foldl (fun a b => a * 8 + (b - 48)) 0)
  else
    Except.error "numeric field was not a number"

/-- Modelled from the spec: the external header codec's `size()` accessor,
decoding the octal size field occupying bytes `[124,136)` of the block. -/
def headerSize (block : List Byte) : Except String Nat :=
  parseOctal ((block.drop 124).take 12)

/-- `AsyncEntries::next_entry_raw` (src/async_archive.rs:174-268). The
`delta` computed on lines 179-184 is `header_pos - self.fields.offset` with
`header_pos = self.fields.offset`, hence always zero, so no seek is issued and
the header is read from the stream's current physical position. All error
branches leave `done` untouched; `offset` is incremented by 512 (wrapping)
before any validation. -/
def nextEntryRaw (s : Session) : Except String (Option Entry) × Session :=
  match tryReadAll s.stream 512 with
  | (none, st') => (Except.ok none, { s with stream := st', done := true })
  | (some block, st') =>
    let s1 : Session := { s with stream := st', offset := (s.offset + 512) % U64 }
    if isZeroBlock block then
      if s1.offset == 512 then
        (Except.error "archive has invalid header", s1)
      else if !s.ignoreZeros then
        (Except.ok none, { s1 with done := true })
      else
        (Except.error "archive header all zeros but ignore_zeros is true", s1)
    else if hasBadByte block then
      (Except.error "archive header contains invalid bytes", s1)
    else if !magicOkB block then
      (Except.error "archive header not recognized", s1)
    else if !cksumFieldOk block then
      (Except.error "archive header checksum field contains invalid characters", s1)
    else
      match parseCksum (cksumField block) with
      | Except.error e => (Except.error e, s1)
      | Except.ok ck =>
        if sumHeader block != ck then
          (Except.error "archive header checksum mismatch", s1)
        else
          match headerSize block with
          | Except.error e => (Except.error e, s1)
          | Except.ok sz =>
            let ent : Entry :=
              { header := block, size := sz, pos := 0, headerPos := s.offset,
                filePos := s1.offset, paxExtensions := none,
                longPathname := none, longLinkname := none }
            (Except.ok (some ent), { s1 with offset := (s1.offset + roundUp512 sz) % U64 })

/-- `AsyncEntries::next` (src/async_archive.rs:158-172): short-circuits on
`done`, delegates to `next_entry_raw`, and sets `done` on `Ok(None)`. Errors
are returned without setting `done`. -/
def next (s : Session) : Except String (Option Entry) × Session :=
  if s.done then (Except.ok none, s)
  else
    match nextEntryRaw s with
    | (Except.ok (some e), s') => (Except.ok (some e), s')
    | (Except.ok none, s') => (Except.ok none, { s' with done := true })
    | (Except.error e, s') => (Except.error e, s')

/-- `AsyncArchiveReader::entries` (src/async_archive.rs:96-119): reads the
first 512-byte block in full (error on short read), rejects an all-zero first
block, then issues `seek_relative(reader, 0)` — a `SeekFrom::Current(0)` that
leaves the physical position where the validation read put it — and returns a
traversal whose `offset` is the archive's `pos` field, 0. -/
def asyncEntries (data : List Byte) (ignoreZeros : Bool) : Except String Session :=
  match tryReadAll { data := data, pos := 0 } 512 with
  | (none, _) => Except.error "archive has invalid header"
  | (some block, st') =>
    if isZeroBlock block then Except.error "archive has invalid header"
    else
      match seekRelative st' 0 with
      | Except.error e => Except.error e
      | Except.ok st2 =>
        Except.ok { stream := st2, offset := 0, done := false, ignoreZeros := ignoreZeros }

/-- `AsyncEntryTrait::read` for `AsyncEntry` (src/async_traits.rs:158-171):
returns 0 at or past the declared size; otherwise clamps the request to
`size - pos` and polls one read of the shared stream **at its current physical
position** — no seek is issued before the read. The byte count and the bytes
that landed in the caller's buffer are returned. -/
def entryRead (e : Entry) (st : ByteStream) (bufLen : Nat) : Except String (List Byte) × Entry × ByteStream :=
  if e.size ≤ e.pos then (Except.ok [], e, st)
  else
    let amt := min bufLen (e.size - e.pos)
    let (bytes, st') := readChunk st amt
    (Except.ok bytes, { e with pos := e.pos + bytes.length }, st')

/-- `AsyncEntryTrait::read` for `AsyncEntryReader` (src/async_entry.rs:135-152):
same clamping, but first seeks the shared stream to the absolute offset
`file_pos + pos` (a wrapping `u64` sum) before polling the read. -/
def entryReaderRead (e : Entry) (st : ByteStream) (bufLen : Nat) : Except String (List Byte) × Entry × ByteStream :=
  if e.size ≤ e.pos then (Except.ok [], e, st)
  else
    let st1 : ByteStream := { st with pos := (e.filePos + e.pos) % U64 }
    let amt := min bufLen (e.size - e.pos)
    let (bytes, st2) := readChunk st1 amt
    (Except.ok bytes, { e with pos := e.pos + bytes.length }, st2)

/-- The loop of `AsyncEntry::read_all` (src/async_traits.rs:173-184): a buffer
of `size` zeros is filled by repeated `read` calls into its unfilled suffix;
a zero-length read breaks the loop and the buffer is truncated to what was
filled — the result is `Ok` regardless of how much arrived. The fuel is ample:
every continuing iteration appends at least one byte and the loop stops once
`size` bytes have accumulated. -/
def readAllLoop : Nat → Entry → ByteStream → List Byte → Except String (List Byte) × Entry × ByteStream
  | 0, e, st, acc => (Except.ok acc, e, st)
  | fuel + 1, e, st, acc =>
    if e.size ≤ acc.length then (Except.ok acc, e, st)
    else
      match entryRead e st (e.size - acc.length) with
      | (Except.ok bytes, e', st') =>
        if bytes.length == 0 then (Except.ok acc, e', st')
        else readAllLoop fuel e' st' (acc ++ bytes)
      | (Except.error msg, e', st') => (Except.error msg, e', st')

/-- `AsyncEntry::read_all` (src/async_traits.rs:173-184). -/
def entryReadAll (e : Entry) (st : ByteStream) : Except String (List Byte) × Entry × ByteStream :=
  readAllLoop (e.size + 1) e st []

/-- The three `tokio::io::SeekFrom` constructors. -/
inductive SeekFrom where
  | start (n : Nat)
  | current (d : Int)
  | fromEnd (d : Int)
deriving DecidableEq, Repr

/-- `u64::saturating_add_signed`: clamps the signed sum into `[0, 2^64 - 1]`. -/
def satAddSigned (a : Nat) (d : Int) : Nat :=
  if (a : Int) + d < 0 then 0
  else if (U64 : Int) - 1 < (a : Int) + d then U64 - 1
  else ((a : Int) + d).toNat

/-- `AsyncSeek::start_seek` for `AsyncEntry` (src/async_traits.rs:133-149),
identical in `AsyncEntryReader` (src/async_entry.rs:49-65): pure bookkeeping
on the entry's logical cursor, returning `Ok` in every branch and never
touching the shared stream (which it does not even receive). -/
def startSeek (e : Entry) (p : SeekFrom) : Except String Entry :=
  match p with
  | SeekFrom.start n => Except.ok { e with pos := n }
  | SeekFrom.current d => Except.ok { e with pos := satAddSigned e.pos d }
  | SeekFrom.fromEnd d => Except.ok { e with pos := satAddSigned e.size d }

/-! Concrete archive fixtures. -/

/-- Builds a 512-byte header block: `first` at index 0, the 12-byte size field
at `[124,136)`, the 8-byte checksum field at `[148,156)`, the type-flag byte at
index 156, the ustar magic at `[257,265)`, and zeros elsewhere. -/
def mkHeader (first : Byte) (sizeField cksumDigits : List Byte) (typeflag : Byte) : List Byte :=
  [first] ++ List.replicate 123 0 ++ sizeField ++ List.replicate 12 0 ++
    cksumDigits ++ [typeflag] ++ List.replicate 100 0 ++ ustarMagic ++ List.replicate 247 0

/-- Octal size field `00000000015` (13) with a terminating NUL. -/
def sizeField13 : List Byte := List.replicate 9 48 ++ [49, 53, 0]

/-- Octal size field `00000000010` (8) with a terminating NUL. -/
def sizeField8 : List Byte := List.replicate 9 48 ++ [49, 48, 0]

/-- An all-NUL size field, decoding to 0. -/
def sizeFieldZero : List Byte := List.replicate 12 0

/-- Header of the single-member "Hello, World!" archive: declared size 13,
checksum `00002645` (octal 0o2645 = 1445 = header sum). -/
def helloHeader : List Byte := mkHeader 0 sizeField13 [48, 48, 48, 48, 50, 54, 52, 53] 0

/-- The 13 payload bytes of "Hello, World!". -/
def helloPayload : List Byte := [72, 101, 108, 108, 111, 44, 32, 87, 111, 114, 108, 100, 33]

/-- The 1024-byte single-member archive: header, payload, zero padding. -/
def helloArchive : List Byte := helloHeader ++ helloPayload ++ List.replicate 499 0

/-- The session state `entries()` produces on `helloArchive`: traversal offset
0, but the shared stream physically parked at byte 512. -/
def helloSession : Session :=
  { stream := { data := helloArchive, pos := 512 }, offset := 0, done := false, ignoreZeros := false }

/-- C1: against the claim, `entries()` on the valid single-member
"Hello, World!" archive succeeds but leaves the shared stream at physical
offset 512 (its `seek_relative(reader, 0)` is `SeekFrom::Current(0)`, which
does not rewind the validation read, contrary to the adjacent comment), so the
first `next()` parses the payload block at bytes `[512,1024)` as a header and
fails with "archive header not recognized" instead of yielding the one entry
of size 13 — the behavior the tests `test_async_archive_read_single_file` and
`test_async_entry_read` assert. -/
theorem c1_hello_archive_divergence :
    asyncEntries helloArchive false = Except.ok helloSession ∧
    helloSession.stream.pos = 512 ∧
    (next helloSession).1 = Except.error "archive header not recognized" := by
  refine ⟨by decide, rfl, by decide⟩

/-- The payload bytes of the truncated fixture: "truncated". -/
def truncPayload : List Byte := [116, 114, 117, 110, 99, 97, 116, 101, 100]

/-- An entry declaring 1000 payload bytes starting at absolute offset 512. -/
def truncEntry : Entry :=
  { header := [], size := 1000, pos := 0, headerPos := 0, filePos := 512,
    paxExtensions := none, longPathname := none, longLinkname := none }

/-- The truncated stream: a 512-byte header block followed by only 9 payload
bytes, positioned at the start of the payload. -/
def truncStream : ByteStream :=
  { data := List.replicate 512 0 ++ truncPayload, pos := 512 }

/-- C2: against the claim (and the test `test_async_truncated_archive`, which
asserts `read_all().is_err()`), `AsyncEntry::read_all` on an entry whose
declared size 1000 exceeds the 9 payload bytes present returns `Ok` with the
9 bytes — a quietly short result, with no truncation error. -/
theorem c2_truncated_read_all_divergence :
    (entryReadAll truncEntry truncStream).1 = Except.ok truncPayload ∧
    truncPayload.length = 9 ∧ truncEntry.size = 1000 := by
  refine ⟨by decide, rfl, rfl⟩

/-- A GNU long-pathname metadata header: type flag `L` (76) at index 156,
declared payload size 8, checksum `00002754` (octal 0o2754 = 1516 = sum). -/
def longHeader : List Byte := mkHeader 0 sizeField8 [48, 48, 48, 48, 50, 55, 53, 52] 76

/-- The long-name payload bytes "longname". -/
def longNamePayload : List Byte := [108, 111, 110, 103, 110, 97, 109, 101]

/-- Archive whose first member is the GNU long-name header and its payload. -/
def longArchive : List Byte := longHeader ++ longNamePayload ++ List.replicate 504 0

/-- A traversal positioned at the long-name header. -/
def longSession : Session :=
  { stream := { data := longArchive, pos := 0 }, offset := 0, done := false, ignoreZeros := false }

/-- The entry the code builds for the metadata header: the raw `L` header
itself, with no pending long-pathname buffer. -/
def longEntryVal : Entry :=
  { header := longHeader, size := 8, pos := 0, headerPos := 0, filePos := 512,
    paxExtensions := none, longPathname := none, longLinkname := none }

/-- C3: against the claim, a GNU long-name metadata member (type flag `L`,
byte 76 at index 156) is yielded verbatim by `next()` — which calls
`next_entry_raw` directly (src/async_archive.rs:164), bypassing the dead
filtering loop `next_entry` — and the entry carries `long_pathname = None`:
no payload is absorbed into a pending buffer and no later header absorbs it. -/
theorem c3_longname_yielded_divergence :
    (next longSession).1 = Except.ok (some longEntryVal) ∧
    (longEntryVal.header.drop 156).head? = some 76 ∧
    longEntryVal.longPathname = none := by
  refine ⟨by decide, by decide, rfl⟩

/-- A 512-byte block that is nonzero and ASCII-clean but has no ustar magic. -/
def badBlockA : List Byte := 65 :: List.replicate 511 0

/-- A traversal over `badBlockA` alone. -/
def badSession : Session :=
  { stream := { data := badBlockA, pos := 0 }, offset := 0, done := false, ignoreZeros := false }

/-- C4, counterexample: after `next()` returns the fatal parse error
"archive header not recognized", the traversal's `done` flag is still false
and the following `next()` call reads the stream again, returning a different
outcome (`Ok None`) — the error is not remembered, contradicting the claim
that a terminal outcome is returned by every subsequent call. -/
theorem c4_error_not_sticky :
    (next badSession).1 = Except.error "archive header not recognized" ∧
    (next badSession).2.done = false ∧
    (next (next badSession).2).1 = Except.ok none := by
  refine ⟨by decide, by decide, by decide⟩

/-- Helper: every `Ok(None)` outcome of `next_entry_raw` carries `done = true`,
and every error outcome leaves `done` exactly as it was. -/
theorem nextEntryRaw_done_shape (s : Session) :
    ((nextEntryRaw s).1 = Except.ok none → (nextEntryRaw s).2.done = true) ∧
    (∀ msg, (nextEntryRaw s).1 = Except.error msg → (nextEntryRaw s).2.done = s.done) := by
  rcases htr : tryReadAll s.stream 512 with ⟨o, st2⟩
  unfold nextEntryRaw
  rw [htr]
  cases o with
  | none => simp
  | some block =>
    by_cases hz : isZeroBlock block
    · by_cases hoff : ((s.offset + 512) % U64) == 512
      · simp [hz, hoff]
      · by_cases hig : s.ignoreZeros
        · simp [hz, hoff, hig]
        · simp [hz, hoff, hig]
    · by_cases hbb : hasBadByte block
      · simp [hz, hbb]
      · by_cases hm : magicOkB block
        · by_cases hcf : cksumFieldOk block
          · rcases hpc : parseCksum (cksumField block) with e | ck
            · simp [hz, hbb, hm, hcf, hpc]
            · by_cases hs : sumHeader block = ck
              · rcases hsz : headerSize block with e | sz
                · simp [hz, hbb, hm, hcf, hpc, hs, hsz]
                · simp [hz, hbb, hm, hcf, hpc, hs, hsz]
              · simp [hz, hbb, hm, hcf, hpc, hs]
          · simp [hz, hbb, hm, hcf]
        · simp [hz, hbb, hm]

/-- C4, amended: only the end-of-archive outcome is sticky. Once `next()`
returns `Ok(None)` the `done` flag is set and every subsequent call returns
`Ok(None)` immediately with the session — stream included — unchanged; a
fatal error, by contrast, leaves `done` as it was, so the traversal does not
remember it and a later call re-attempts I/O. -/
theorem c4_done_sticky (s : Session) :
    ((next s).1 = Except.ok none →
      (next s).2.done = true ∧ next (next s).2 = (Except.ok none, (next s).2)) ∧
    (∀ msg, (next s).1 = Except.error msg → (next s).2.done = s.done) := by
  by_cases hd : s.done
  · have hnext : next s = (Except.ok none, s) := by simp [next, hd]
    constructor
    · intro _
      refine ⟨?_, ?_⟩
      · rw [hnext]
        exact hd
      · rw [hnext]
        simp [next, hd]
    · intro msg hmsg
      rw [hnext] at hmsg
      exact absurd hmsg (by simp)
  · have hshape := nextEntryRaw_done_shape s
    rcases hne : nextEntryRaw s with ⟨r, s2⟩
    rw [hne] at hshape
    cases r with
    | error msg =>
      have hnext : next s = (Except.error msg, s2) := by simp [next, hd, hne]
      constructor
      · intro hok
        rw [hnext] at hok
        exact absurd hok (by simp)
      · intro m hm
        rw [hnext]
        exact hshape.2 msg rfl
    | ok o =>
      cases o with
      | none =>
        have hnext : next s = (Except.ok none, { s2 with done := true }) := by
          simp [next, hd, hne]
        constructor
        · intro _
          refine ⟨by rw [hnext], ?_⟩
          rw [hnext]
          simp [next]
        · intro m hm
          rw [hnext] at hm
          exact absurd hm (by simp)
      | some e =>
        have hnext : next s = (Except.ok (some e), s2) := by simp [next, hd, hne]
        constructor
        · intro hok
          rw [hnext] at hok
          exact absurd hok (by simp)
        · intro m hm
          rw [hnext] at hm
          exact absurd hm (by simp)

/-- A traversal over an empty stream (state as built directly; `entries()`
itself would refuse it). -/
def emptySession : Session :=
  { stream := { data := [], pos := 0 }, offset := 0, done := false, ignoreZeros := false }

/-- C4 witness: on the empty-stream traversal the first `next()` returns
`Ok(None)`, and the amended theorem then gives stickiness of that outcome. -/
theorem c4_done_sticky_witness :
    (next emptySession).1 = Except.ok none ∧
    ((next emptySession).2.done = true ∧
      next (next emptySession).2 = (Except.ok none, (next emptySession).2)) :=
  ⟨by decide, (c4_done_sticky emptySession).1 (by decide)⟩

/-- The checksum comparison as the code performs it: decode the field with
`from_str_radix` and compare with the computed sum; a parse failure means no
match (it surfaces as its own error). -/
def cksumMatches (block : List Byte) : Bool :=
  match parseCksum (cksumField block) with
  | Except.ok n => sumHeader block == n
  | Except.error _ => false

/-- The conjunction of validation conditions a nonzero block must pass for
`next_entry_raw` to yield an entry: no non-ASCII byte, recognized magic, a
well-formed checksum field, and a matching decoded checksum. -/
def headerChecks (block : List Byte) : Bool :=
  !hasBadByte block && magicOkB block && cksumFieldOk block && cksumMatches block

/-- A header whose first byte is 1 (ASCII control, not printable), with valid
magic and checksum `00001620` (octal 0o1620 = 912 = sum including the 1). -/
def ctrlHeader : List Byte := mkHeader 1 sizeFieldZero [48, 48, 48, 48, 49, 54, 50, 48] 0

/-- A traversal positioned at `ctrlHeader`. -/
def ctrlSession : Session :=
  { stream := { data := ctrlHeader, pos := 0 }, offset := 0, done := false, ignoreZeros := false }

/-- The entry the code yields for `ctrlHeader`. -/
def ctrlEntryVal : Entry :=
  { header := ctrlHeader, size := 0, pos := 0, headerPos := 0, filePos := 512,
    paxExtensions := none, longPathname := none, longLinkname := none }

/-- A nonzero ASCII block with no magic, first byte 66. -/
def errBlockB : List Byte := 66 :: List.replicate 511 0

/-- A traversal over `errBlockB` alone. -/
def errSessionB : Session :=
  { stream := { data := errBlockB, pos := 0 }, offset := 0, done := false, ignoreZeros := false }

/-- C5, counterexample: the claim fails in two places. (i) `ctrlHeader`
contains the byte 1 — ASCII but not printable — yet `next()` yields an Entry
for it, because the code's filter is `is_ascii`, not printable ASCII.
(ii) A validation failure is not terminal: after the magic error on
`errSessionB` the following call returns `Ok(None)` instead of the error. -/
theorem c5_nonprintable_yield :
    (next ctrlSession).1 = Except.ok (some ctrlEntryVal) ∧
    ctrlHeader.head? = some 1 ∧
    (next errSessionB).1 = Except.error "archive header not recognized" ∧
    (next (next errSessionB).2).1 = Except.ok none := by
  refine ⟨by decide, by decide, by decide, by decide⟩

/-- C5, amended: for a fully read nonzero block, `next()` yields an Entry only
if every byte is ASCII (at most 127) or zero, the magic matches a recognized
value, the checksum field has only octal digits, spaces, or NULs, and the sum
of header bytes (checksum field as eight spaces) equals the decoded checksum
field; violating any of these makes `next()` return an error and no Entry —
though the error is not sticky (see C4). -/
theorem c5_header_validation (s : Session) (block : List Byte) (st2 : ByteStream)
    (hdone : s.done = false)
    (hread : tryReadAll s.stream 512 = (some block, st2))
    (hnz : isZeroBlock block = false) :
    (∀ e, (next s).1 = Except.ok (some e) → headerChecks block = true) ∧
    (headerChecks block = false → ∃ msg, (next s).1 = Except.error msg) := by
  by_cases hbb : hasBadByte block
  · have hnext : (next s).1 = Except.error "archive header contains invalid bytes" := by
      simp [next, nextEntryRaw, hdone, hread, hnz, hbb]
    refine ⟨?_, ?_⟩
    · intro e he
      rw [hnext] at he
      exact absurd he (by simp)
    · intro _
      exact ⟨_, hnext⟩
  · by_cases hm : magicOkB block
    · by_cases hcf : cksumFieldOk block
      · rcases hpc : parseCksum (cksumField block) with msg | ck
        · have hnext : (next s).1 = Except.error msg := by
            simp [next, nextEntryRaw, hdone, hread, hnz, hbb, hm, hcf, hpc]
          refine ⟨?_, ?_⟩
          · intro e he
            rw [hnext] at he
            exact absurd he (by simp)
          · intro _
            exact ⟨_, hnext⟩
        · by_cases hs : sumHeader block = ck
          · refine ⟨?_, ?_⟩
            · intro e _
              simp [headerChecks, cksumMatches, hbb, hm, hcf, hpc, hs]
            · intro hfalse
              rw [headerChecks, cksumMatches, hpc] at hfalse
              simp [hbb, hm, hcf, hs] at hfalse
          · have hnext : (next s).1 = Except.error "archive header checksum mismatch" := by
              simp [next, nextEntryRaw, hdone, hread, hnz, hbb, hm, hcf, hpc, hs]
            refine ⟨?_, ?_⟩
            · intro e he
              rw [hnext] at he
              exact absurd he (by simp)
            · intro _
              exact ⟨_, hnext⟩
      · have hnext : (next s).1 = Except.error "archive header checksum field contains invalid characters" := by
          simp [next, nextEntryRaw, hdone, hread, hnz, hbb, hm, hcf]
        refine ⟨?_, ?_⟩
        · intro e he
          rw [hnext] at he
          exact absurd he (by simp)
        · intro _
          exact ⟨_, hnext⟩
    · have hnext : (next s).1 = Except.error "archive header not recognized" := by
        simp [next, nextEntryRaw, hdone, hread, hnz, hbb, hm]
      refine ⟨?_, ?_⟩
      · intro e he
        rw [hnext] at he
        exact absurd he (by simp)
      · intro _
        exact ⟨_, hnext⟩

/-- C5 witness: the valid long-name header satisfies the hypotheses and the
theorem's first branch confirms its checks all pass. -/
theorem c5_header_validation_witness :
    longSession.done = false ∧ isZeroBlock longHeader = false ∧
    headerChecks longHeader = true :=
  ⟨rfl, by decide,
    (c5_header_validation longSession longHeader { data := longArchive, pos := 512 }
      rfl (by decide) (by decide)).1 longEntryVal (by decide)⟩

/-- A mid-archive traversal (offset 512) whose stream holds one all-zero
block. -/
def zeroAfterSession : Session :=
  { stream := { data := List.replicate 512 0, pos := 0 }, offset := 512,
    done := false, ignoreZeros := false }

/-- C6: an all-zero block read as the very first header of the session
(traversal offset 0 before the read) is the error "archive has invalid
header"; after at least one prior block (offset nonzero) it is clean
end-of-archive when `ignore_zeros` is disabled, and the error "archive header
all zeros but ignore_zeros is true" when it is enabled. -/
theorem c6_zero_block (s : Session) (block : List Byte) (st2 : ByteStream)
    (hdone : s.done = false)
    (hlt : s.offset < U64)
    (hread : tryReadAll s.stream 512 = (some block, st2))
    (hz : isZeroBlock block = true) :
    (s.offset = 0 → (next s).1 = Except.error "archive has invalid header") ∧
    (s.offset ≠ 0 → s.ignoreZeros = false →
      (next s).1 = Except.ok none ∧ (next s).2.done = true) ∧
    (s.offset ≠ 0 → s.ignoreZeros = true →
      (next s).1 = Except.error "archive header all zeros but ignore_zeros is true") := by
  have h512 : 512 < U64 := by decide
  have hoffiff : ∀ h0 : s.offset ≠ 0, (s.offset + 512) % U64 ≠ 512 := by
    intro h0 hcontra
    rcases Nat.lt_or_ge (s.offset + 512) U64 with hlt2 | hge
    · rw [Nat.mod_eq_of_lt hlt2] at hcontra
      omega
    · have hmod : (s.offset + 512) % U64 = s.offset + 512 - U64 := by
        rw [Nat.mod_eq_sub_mod hge]
        exact Nat.mod_eq_of_lt (by omega)
      rw [hmod] at hcontra
      omega
  refine ⟨?_, ?_, ?_⟩
  · intro h0
    have hoff : (s.offset + 512) % U64 = 512 := by
      rw [h0]
      decide
    simp [next, nextEntryRaw, hdone, hread, hz, hoff]
  · intro h0 hig
    have hoff := hoffiff h0
    constructor
    · simp [next, nextEntryRaw, hdone, hread, hz, hoff, hig]
    · simp [next, nextEntryRaw, hdone, hread, hz, hoff, hig]
  · intro h0 hig
    have hoff := hoffiff h0
    simp [next, nextEntryRaw, hdone, hread, hz, hoff, hig]

/-- C6 witness: the mid-archive all-zero block with `ignore_zeros` disabled
yields clean end-of-archive via the theorem's second branch. -/
theorem c6_zero_block_witness :
    zeroAfterSession.offset ≠ 0 ∧ zeroAfterSession.ignoreZeros = false ∧
    ((next zeroAfterSession).1 = Except.ok none ∧ (next zeroAfterSession).2.done = true) :=
  ⟨by decide, rfl,
    (c6_zero_block zeroAfterSession (List.replicate 512 0)
      { data := List.replicate 512 0, pos := 512 }
      rfl (by decide) (by decide) (by decide)).2.1 (by decide) rfl⟩

/-- The entry of the "Hello, World!" member: 13 bytes starting at absolute
offset 512. -/
def helloEntry : Entry :=
  { header := helloHeader, size := 13, pos := 0, headerPos := 0, filePos := 512,
    paxExtensions := none, longPathname := none, longLinkname := none }

/-- The shared stream parked at byte 1024 (where a header scan would have
left it). -/
def helloStreamAt1024 : ByteStream := { data := helloArchive, pos := 1024 }

/-- C7: against the claim, `AsyncEntry::read` (the type `next()` yields, in
src/async_traits.rs:158-171) never repositions the stream: with the stream
physically at byte 1024 it reads 0 bytes instead of the 13 payload bytes at
`payload_start_offset + read_cursor = 512`. `AsyncEntryReader::read`
(src/async_entry.rs:135-152) does reposition and returns the payload — the
seek-then-read behavior the claim describes and the partial-read test
`test_async_entry_read` requires. -/
theorem c7_read_no_seek_divergence :
    (entryRead helloEntry helloStreamAt1024 13).1 = Except.ok [] ∧
    (entryReaderRead helloEntry helloStreamAt1024 13).1 = Except.ok helloPayload := by
  refine ⟨by decide, by decide⟩

/-- A stream holding only 300 bytes — a partial header block. -/
def c8Session : Session :=
  { stream := { data := List.replicate 300 65, pos := 0 }, offset := 512,
    done := false, ignoreZeros := false }

/-- C8, counterexample: a partial header block of 300 bytes (1..511 before
end-of-stream) makes `next()` report clean end-of-archive (`Ok(None)` with
`done` set) — not the fatal truncation error the claim requires:
`try_read_all_async` collapses every short read to `Ok(false)` and
`next_entry_raw` maps that to end-of-archive unconditionally. -/
theorem c8_partial_block_done :
    (next c8Session).1 = Except.ok none ∧
    (next c8Session).2.done = true ∧
    c8Session.stream.data.length = 300 := by
  refine ⟨by decide, by decide, by decide⟩

/-- C8, amended: whenever the 512-byte header read is cut short by
end-of-stream — at a block boundary (0 bytes) or mid-block (1..511 bytes) —
`next()` reports clean end-of-archive: `Ok(None)` with `done` set and the
stream advanced past the remaining bytes. No partial-block error exists. -/
theorem c8_short_read_done (s : Session) (st2 : ByteStream)
    (hdone : s.done = false)
    (hread : tryReadAll s.stream 512 = (none, st2)) :
    next s = (Except.ok none, { s with stream := st2, done := true }) := by
  simp [next, nextEntryRaw, hdone, hread]

/-- C8 witness: the 300-byte stream instantiates the amended theorem. -/
theorem c8_short_read_witness :
    c8Session.done = false ∧
    next c8Session =
      (Except.ok none,
        { c8Session with stream := { data := List.replicate 300 65, pos := 300 }, done := true }) :=
  ⟨rfl, c8_short_read_done c8Session { data := List.replicate 300 65, pos := 300 } rfl (by decide)⟩

/-- A plain valid header: zero size, checksum `00001617`
(octal 0o1617 = 911 = sum). -/
def plainHeader : List Byte := mkHeader 0 sizeFieldZero [48, 48, 48, 48, 49, 54, 49, 55] 0

/-- A traversal whose offset sits 512 bytes below the end of the `u64`
range — the state reached after scanning an archive of that accumulated
length. -/
def wrapSession : Session :=
  { stream := { data := plainHeader, pos := 0 }, offset := U64 - 512,
    done := false, ignoreZeros := false }

/-- The entry yielded at the wrapping offset: its `file_pos` has wrapped
to 0. -/
def wrapEntry : Entry :=
  { header := plainHeader, size := 0, pos := 0, headerPos := U64 - 512, filePos := 0,
    paxExtensions := none, longPathname := none, longLinkname := none }

/-- C9, counterexample: the header-offset advancement has no overflow check —
`offset += BLOCK_SIZE` and `offset += rounded_size` are plain (wrapping) `u64`
additions. At traversal offset `2^64 - 512` the next entry is yielded with no
size-overflow error, and the traversal offset wraps to 0, strictly below its
previous value: the claimed monotonicity and overflow error both fail. -/
theorem c9_offset_wraps :
    (next wrapSession).1 = Except.ok (some wrapEntry) ∧
    (next wrapSession).2.offset = 0 ∧
    0 < wrapSession.offset := by
  refine ⟨by decide, by decide, by decide⟩

/-- C9, amended: when `next()` yields an entry, the new traversal offset is
`(header offset + 512 + size rounded up to a 512 multiple) mod 2^64`, the
entry records the header's offset and the wrapped payload start, and the
advancement is monotone (never decreasing) exactly when that sum stays below
`2^64`; on overflow the offset silently wraps instead of raising an error. -/
theorem c9_offset_advance (s : Session) (e : Entry) (s2 : Session)
    (h : next s = (Except.ok (some e), s2)) :
    (e.headerPos = s.offset ∧ e.filePos = (s.offset + 512) % U64 ∧
      s2.offset = (s.offset + 512 + roundUp512 e.size) % U64) ∧
    (s.offset + 512 + roundUp512 e.size < U64 → s.offset ≤ s2.offset) := by
  unfold next at h
  by_cases hd : s.done
  · simp [hd] at h
  · rw [if_neg hd] at h
    rcases hne : nextEntryRaw s with ⟨r, s3⟩
    rw [hne] at h
    cases r with
    | error msg => simp at h
    | ok o =>
      cases o with
      | none => simp at h
      | some e0 =>
        simp only [Prod.mk.injEq, Except.ok.injEq, Option.some.injEq] at h
        obtain ⟨he, hs2⟩ := h
        subst he
        subst hs2
        unfold nextEntryRaw at hne
        rcases htr : tryReadAll s.stream 512 with ⟨o2, st2⟩
        rw [htr] at hne
        cases o2 with
        | none => simp at hne
        | some block =>
          by_cases hz : isZeroBlock block
          · by_cases hoff : ((s.offset + 512) % U64) == 512
            · simp [hz, hoff] at hne
            · by_cases hig : s.ignoreZeros
              · simp [hz, hoff, hig] at hne
              · simp [hz, hoff, hig] at hne
          · by_cases hbb : hasBadByte block
            · simp [hz, hbb] at hne
            · by_cases hm : magicOkB block
              · by_cases hcf : cksumFieldOk block
                · rcases hpc : parseCksum (cksumField block) with msg | ck
                  · simp [hz, hbb, hm, hcf, hpc] at hne
                  · by_cases hs : sumHeader block = ck
                    · rcases hsz : headerSize block with msg | sz
                      · simp [hz, hbb, hm, hcf, hpc, hs, hsz] at hne
                      · simp [hz, hbb, hm, hcf, hpc, hs, hsz] at hne
                        obtain ⟨he0, hs3⟩ := hne
                        subst he0
                        subst hs3
                        refine ⟨⟨rfl, rfl, rfl⟩, ?_⟩
                        intro hlt
                        have hlt2 : s.offset + 512 + roundUp512 sz < U64 := hlt
                        show s.offset ≤ (s.offset + 512 + roundUp512 sz) % U64
                        rw [Nat.mod_eq_of_lt hlt2]
                        omega
                    · simp [hz, hbb, hm, hcf, hpc, hs] at hne
                · simp [hz, hbb, hm, hcf] at hne
              · simp [hz, hbb, hm] at hne

/-- A traversal at offset 0 over the plain valid header. -/
def w9Session : Session :=
  { stream := { data := plainHeader, pos := 0 }, offset := 0, done := false, ignoreZeros := false }

/-- The entry yielded from `w9Session`. -/
def w9Entry : Entry :=
  { header := plainHeader, size := 0, pos := 0, headerPos := 0, filePos := 512,
    paxExtensions := none, longPathname := none, longLinkname := none }

/-- The traversal state after that entry: offset advanced to 512. -/
def w9After : Session :=
  { stream := { data := plainHeader, pos := 512 }, offset := 512, done := false, ignoreZeros := false }

/-- C9 witness: the in-range advancement on a concrete valid header. -/
theorem c9_offset_advance_witness :
    next w9Session = (Except.ok (some w9Entry), w9After) ∧
    (w9Entry.headerPos = w9Session.offset ∧
      w9Entry.filePos = (w9Session.offset + 512) % U64 ∧
      w9After.offset = (w9Session.offset + 512 + roundUp512 w9Entry.size) % U64) :=
  ⟨by decide, (c9_offset_advance w9Session w9Entry w9After (by decide)).1⟩

/-- C10: the entry cursor's `start_seek` is pure bookkeeping that always
succeeds and never touches the shared stream (its signature does not even
receive it): `Start(n)` sets the cursor unconditionally, `Current`/`End` use
saturating signed addition, and a `read` with the cursor at or beyond the
declared size returns `Ok` with 0 bytes and the stream untouched. -/
theorem c10_entry_seek (e : Entry) (st : ByteStream) (len n : Nat) (d d2 : Int) :
    startSeek e (SeekFrom.start n) = Except.ok { e with pos := n } ∧
    startSeek e (SeekFrom.current d) = Except.ok { e with pos := satAddSigned e.pos d } ∧
    startSeek e (SeekFrom.fromEnd d2) = Except.ok { e with pos := satAddSigned e.size d2 } ∧
    (e.size ≤ e.pos → entryRead e st len = (Except.ok [], e, st)) := by
  refine ⟨rfl, rfl, rfl, ?_⟩
  intro h
  simp [entryRead, h]

/-- An entry whose cursor (20) is already past its declared size (13). -/
def seekEntry : Entry :=
  { header := [], size := 13, pos := 20, headerPos := 0, filePos := 512,
    paxExtensions := none, longPathname := none, longLinkname := none }

/-- A stream with plenty of data left, to show the read still returns 0. -/
def seekStream : ByteStream := { data := List.replicate 600 7, pos := 0 }

/-- C10 witness: a concrete cursor past the end reads 0 bytes, no error, no
stream movement. -/
theorem c10_entry_seek_witness :
    seekEntry.size ≤ seekEntry.pos ∧
    entryRead seekEntry seekStream 5 = (Except.ok [], seekEntry, seekStream) :=
  ⟨by decide, (c10_entry_seek seekEntry seekStream 5 0 0 0).2.2.2 (by decide)⟩
